import Mathlib

/-!
Shallow embedding of the room/session coordinator of the RealTimeVoiceBackend
repository (the `initializeVoice` socket handlers of the voice service, latest
revision: the one keeping a `socketToPeer` binding map).

JavaScript `Map` and `Set` are modelled as association lists / duplicate-free
lists in insertion order, matching the iteration order the handlers rely on.
Socket.IO delivery (`io.to(name)`, `socket.to(name)`) resolves a name to the
sockets in the room of that name, where every connected socket is implicitly a
member of the room named by its own identifier.
-/

namespace RealTimeVoice

/-- JSON-like wire values carried by emitted events; field names are explicit
so that statements about the wire contract can talk about them. -/
inductive JVal where
  | s (v : String)
  | arr (vs : List JVal)
  | obj (fields : List (String × JVal))

/-- The field names of an object payload, in order; `[]` for non-objects. -/
def fieldNames : JVal → List String
  | .obj fs => fs.map Prod.fst
  | _ => []

/-- One resolved emission: the socket ids it is delivered to, the event name,
and the payload. -/
structure Emit where
  targets : List String
  event : String
  data : JVal

/-- The coordinator state: open connections, Socket.IO room membership
(`socket.join`/`socket.leave`), the `activePeers` map (meetingId to set of
peer ids) and the `socketToPeer` map (socket id to bound peer id). -/
structure VoiceState where
  connected : List String
  rooms : List (String × List String)
  activePeers : List (String × List String)
  socketToPeer : List (String × String)
deriving DecidableEq

/-- JS `Map.prototype.get`. -/
def mapGet {β : Type} (l : List (String × β)) (k : String) : Option β :=
  (l.find? (fun e => e.fst == k)).map Prod.snd

/-- JS `Map.prototype.has`. -/
def mapHas {β : Type} (l : List (String × β)) (k : String) : Bool :=
  (mapGet l k).isSome

/-- JS `Map.prototype.set`: overwrite in place, or append a new entry. -/
def mapSet {β : Type} (l : List (String × β)) (k : String) (v : β) :
    List (String × β) :=
  if mapHas l k then l.map (fun e => if e.fst == k then (k, v) else e)
  else l ++ [(k, v)]

/-- JS `Map.prototype.delete`. -/
def mapDelete {β : Type} (l : List (String × β)) (k : String) :
    List (String × β) :=
  l.filter (fun e => e.fst != k)

/-- JS `Set.prototype.add`: append only when absent. -/
def setAdd (l : List String) (x : String) : List String :=
  if x ∈ l then l else l ++ [x]

/-- JS `Set.prototype.delete`: remove the element. -/
def setDelete (l : List String) (x : String) : List String :=
  l.filter (fun q => q != x)

/-- Sockets currently in Socket.IO room `name`. -/
def roomMembers (rooms : List (String × List String)) (name : String) :
    List String :=
  (mapGet rooms name).getD []

/-- `socket.join(name)`. -/
def roomJoin (rooms : List (String × List String)) (name sock : String) :
    List (String × List String) :=
  mapSet rooms name (setAdd (roomMembers rooms name) sock)

/-- `socket.leave(name)`. -/
def roomLeave (rooms : List (String × List String)) (name sock : String) :
    List (String × List String) :=
  rooms.map (fun e => if e.fst == name then (e.fst, setDelete e.snd sock) else e)

/-- Resolution of `io.to(name)`: the socket whose id is `name` when it is
connected (every socket is implicitly in the room of its own id), plus the
sockets that joined room `name`. -/
def deliverTo (st : VoiceState) (name : String) : List String :=
  (if name ∈ st.connected then [name] else []) ++
    (roomMembers st.rooms name).filter (fun x => x != name)

/-- Resolution of `socket.to(name)`: `io.to(name)` minus the sender. -/
def deliverToExcept (st : VoiceState) (name sock : String) : List String :=
  (deliverTo st name).filter (fun x => x != sock)

/-- The peer-id set recorded for a meeting in `activePeers` (`membersOf`). -/
def membersOf (st : VoiceState) (m : String) : List String :=
  (mapGet st.activePeers m).getD []

/-- A participant entry as built by the join handler: note the source spells
the second field `odiserId`, in both the reply and the broadcast. -/
def participantObj (sockField peerField : String) : JVal :=
  .obj [("socketId", .s sockField), ("odiserId", .s peerField),
        ("displayName", .s "User")]

/-- The `join-voice-room` handler.  `validActive m` stands for the Firestore
lookup `meetingDoc.exists && meetingDoc.data()?.status === 'active'`. -/
def joinVoiceRoom (validActive : String → Bool) (st : VoiceState)
    (sockId meetingId peerId _userId : String) : VoiceState × List Emit :=
  if validActive meetingId = false then
    (st, [Emit.mk [sockId] "voice-error" (.s "Meeting not found or inactive")])
  else
    let ap0 := if mapHas st.activePeers meetingId then st.activePeers
               else mapSet st.activePeers meetingId []
    let peers := (mapGet ap0 meetingId).getD []
    if 10 ≤ peers.length then
      ({ st with activePeers := ap0 },
       [Emit.mk [sockId] "voice-error" (.s "Meeting full (maximum 10 users)")])
    else
      let rooms1 := roomJoin st.rooms meetingId sockId
      let peers1 := setAdd peers peerId
      let ap1 := mapSet ap0 meetingId peers1
      let stp1 := mapSet st.socketToPeer sockId peerId
      let st1 : VoiceState :=
        { connected := st.connected, rooms := rooms1,
          activePeers := ap1, socketToPeer := stp1 }
      let others := deliverToExcept st1 meetingId sockId
      let peersInRoom := (mapGet ap1 meetingId).getD []
      (st1,
       [Emit.mk others "peer-joined" (.s peerId),
        Emit.mk [sockId] "voice-joined"
          (.obj [("peers",
                  .arr ((peers1.filter (fun q => q != peerId)).map JVal.s)),
                 ("meetingId", .s meetingId)]),
        Emit.mk [sockId] "room-participants"
          (.obj [("participants",
                  .arr ((peersInRoom.filter (fun q => q != peerId)).map
                    (fun q => participantObj q q)))]),
        Emit.mk others "participant-joined" (participantObj sockId peerId)])

/-- The `leave-voice-room` handler. -/
def leaveVoiceRoom (st : VoiceState) (sockId meetingId peerId : String) :
    VoiceState × List Emit :=
  let rooms1 := roomLeave st.rooms meetingId sockId
  match mapGet st.activePeers meetingId with
  | none =>
      ({ st with rooms := rooms1,
                 socketToPeer := mapDelete st.socketToPeer sockId }, [])
  | some peers =>
      let peers1 := setDelete peers peerId
      let ap1 := if peers1.length = 0 then mapDelete st.activePeers meetingId
                 else mapSet st.activePeers meetingId peers1
      ({ connected := st.connected, rooms := rooms1, activePeers := ap1,
         socketToPeer := mapDelete st.socketToPeer sockId },
       [Emit.mk (deliverTo { st with rooms := rooms1 } meetingId)
          "peer-disconnected" (.s peerId)])

/-- The `end-meeting` handler: a bare broadcast, no state change. -/
def endMeeting (st : VoiceState) (meetingId : String) :
    VoiceState × List Emit :=
  (st, [Emit.mk (deliverTo st meetingId) "force-disconnect" (.obj [])])

/-- The `webrtc-offer` handler. -/
def webrtcOffer (st : VoiceState) (sockId targetSocketId : String)
    (offer : JVal) : VoiceState × List Emit :=
  (st, [Emit.mk (deliverTo st targetSocketId) "webrtc-offer"
          (.obj [("senderSocketId", .s sockId), ("offer", offer)])])

/-- The `webrtc-answer` handler. -/
def webrtcAnswer (st : VoiceState) (sockId targetSocketId : String)
    (answer : JVal) : VoiceState × List Emit :=
  (st, [Emit.mk (deliverTo st targetSocketId) "webrtc-answer"
          (.obj [("senderSocketId", .s sockId), ("answer", answer)])])

/-- The `ice-candidate` handler. -/
def iceCandidate (st : VoiceState) (sockId targetSocketId : String)
    (candidate : JVal) : VoiceState × List Emit :=
  (st, [Emit.mk (deliverTo st targetSocketId) "ice-candidate"
          (.obj [("senderSocketId", .s sockId), ("candidate", candidate)])])

/-- Transport-level part of a disconnect: the socket leaves every room and
stops being connected before the user-level `disconnect` handler runs. -/
def transportLeave (st : VoiceState) (sockId : String) : VoiceState :=
  { connected := st.connected.filter (fun x => x != sockId),
    rooms := st.rooms.map (fun e => (e.fst, e.snd.filter (fun x => x != sockId))),
    activePeers := st.activePeers, socketToPeer := st.socketToPeer }

/-- The loop of the `disconnect` handler over the `activePeers` entries:
returns the surviving entries and, per meeting that contained the bound peer,
the (meetingId, peerId) of one `peer-disconnected` emission, in map order. -/
def cleanupEntries (bound : Option String) :
    List (String × List String) →
      List (String × List String) × List (String × String)
  | [] => ([], [])
  | (m, peers) :: rest =>
      let r := cleanupEntries bound rest
      match bound with
      | some p =>
          if peers.contains p then
            let peers1 := setDelete peers p
            if peers1.length = 0 then (r.fst, (m, p) :: r.snd)
            else ((m, peers1) :: r.fst, (m, p) :: r.snd)
          else ((m, peers) :: r.fst, r.snd)
      | none => ((m, peers) :: r.fst, r.snd)

/-- The `disconnect` handler. -/
def socketDisconnect (st : VoiceState) (sockId : String) :
    VoiceState × List Emit :=
  let st1 := transportLeave st sockId
  let bound := mapGet st1.socketToPeer sockId
  let r := cleanupEntries bound st1.activePeers
  ({ connected := st1.connected, rooms := st1.rooms, activePeers := r.fst,
     socketToPeer := mapDelete st1.socketToPeer sockId },
   r.snd.map (fun e =>
     Emit.mk (deliverTo st1 e.fst) "peer-disconnected" (.s e.snd)))

/-- The entries of the `participants` array of a `room-participants` payload;
empty for every other payload shape. -/
def participantEntries : JVal → List JVal
  | .obj (("participants", .arr l) :: _) => l
  | _ => []

/-! ### Concrete states used to instantiate the theorems -/

/-- Ten distinct peer ids. -/
def tenPeersW : List String :=
  ["P1", "P2", "P3", "P4", "P5", "P6", "P7", "P8", "P9", "P10"]

/-- A state whose room "M1" already holds 10 distinct peers. -/
def stFullW : VoiceState :=
  ⟨["S1", "S11"], [("M1", ["S1"])], [("M1", tenPeersW)], [("S1", "P1")]⟩

/-- A state with two connected sockets and an empty registry. -/
def stTwoW : VoiceState :=
  ⟨["S1", "S2"], [], [], []⟩

/-- The state reached after peer "P1" (socket "S1") joined meeting "M1",
with a second socket "S2" connected. -/
def stJoin1W : VoiceState :=
  ⟨["S1", "S2"], [("M1", ["S1"])], [("M1", ["P1"])], [("S1", "P1")]⟩

/-- A state where "M1" holds peers "P1", "P2" on sockets "S1", "S2". -/
def stRoomW : VoiceState :=
  ⟨["S1", "S2"], [("M1", ["S1", "S2"])], [("M1", ["P1", "P2"])],
   [("S1", "P1"), ("S2", "P2")]⟩

/-! ### Lemmas about the JS map and set primitives -/

theorem mapGet_replace {β : Type} (l : List (String × β)) (k : String) (v : β)
    (h : mapHas l k = true) :
    mapGet (l.map (fun e => if e.fst == k then (k, v) else e)) k = some v := by
  induction l with
  | nil => simp [mapHas, mapGet] at h
  | cons e l ih =>
      by_cases he : e.fst = k
      · simp [mapGet, List.find?, he]
      · have he' : (e.fst == k) = false := by simp [he]
        have h' : mapHas l k = true := by
          simpa [mapHas, mapGet, List.find?, he'] using h
        simpa [mapGet, List.find?, he'] using ih h'

theorem mapGet_append_new {β : Type} (l : List (String × β)) (k : String)
    (v : β) (h : mapHas l k = false) :
    mapGet (l ++ [(k, v)]) k = some v := by
  induction l with
  | nil => simp [mapGet, List.find?]
  | cons e l ih =>
      by_cases he : e.fst = k
      · simp [mapHas, mapGet, List.find?, he] at h
      · have he' : (e.fst == k) = false := by simp [he]
        have h' : mapHas l k = false := by
          simpa [mapHas, mapGet, List.find?, he'] using h
        simpa [mapGet, List.find?, he'] using ih h'

theorem mapGet_mapSet_self {β : Type} (l : List (String × β)) (k : String)
    (v : β) : mapGet (mapSet l k v) k = some v := by
  unfold mapSet
  cases h : mapHas l k with
  | true => simpa [h] using mapGet_replace l k v h
  | false => simpa [h] using mapGet_append_new l k v h

theorem mapHas_mapSet_self {β : Type} (l : List (String × β)) (k : String)
    (v : β) : mapHas (mapSet l k v) k = true := by
  simp [mapHas, mapGet_mapSet_self]

theorem mapGet_mapDelete_self {β : Type} (l : List (String × β)) (k : String) :
    mapGet (mapDelete l k) k = none := by
  induction l with
  | nil => simp [mapDelete, mapGet]
  | cons e l ih =>
      by_cases he : e.fst = k
      · simp only [mapDelete] at ih ⊢
        simp [he, ih]
      · have he' : (e.fst == k) = false := by simp [he]
        simp only [mapDelete] at ih ⊢
        simp [mapGet, List.find?, he', bne, ih]

theorem mapHas_mapDelete_self {β : Type} (l : List (String × β)) (k : String) :
    mapHas (mapDelete l k) k = false := by
  simp [mapHas, mapGet_mapDelete_self]

theorem filter_idem {α : Type} (p : α → Bool) (l : List α) :
    (l.filter p).filter p = l.filter p := by
  induction l with
  | nil => rfl
  | cons a l ih =>
      by_cases h : p a = true
      · simp [List.filter, h, ih]
      · simp only [Bool.not_eq_true] at h
        simp [List.filter, h, ih]

theorem mapDelete_idem {β : Type} (l : List (String × β)) (k : String) :
    mapDelete (mapDelete l k) k = mapDelete l k :=
  filter_idem _ l

theorem setDelete_idem (l : List String) (x : String) :
    setDelete (setDelete l x) x = setDelete l x :=
  filter_idem _ l

theorem setDelete_contains_self (l : List String) (x : String) :
    (setDelete l x).contains x = false := by
  simp [setDelete, List.elem_iff, List.mem_filter]

theorem mapSet_of_has {β : Type} (l : List (String × β)) (k : String) (v : β)
    (h : mapHas l k = true) :
    mapSet l k v = l.map (fun e => if e.fst == k then (k, v) else e) := by
  unfold mapSet
  rw [h]
  simp

theorem mapSet_of_not_has {β : Type} (l : List (String × β)) (k : String)
    (v : β) (h : mapHas l k = false) : mapSet l k v = l ++ [(k, v)] := by
  unfold mapSet
  rw [h]
  simp

theorem map_of_not_has {β : Type} (l : List (String × β)) (k : String) (v : β)
    (h : mapHas l k = false) :
    l.map (fun e => if e.fst == k then (k, v) else e) = l := by
  have hnone : l.find? (fun e => e.fst == k) = none := by
    simp only [mapHas, mapGet, Option.isSome_map] at h
    cases hf : l.find? (fun e => e.fst == k) with
    | none => rfl
    | some e => rw [hf] at h; simp at h
  have hall := List.find?_eq_none.mp hnone
  have : l.map (fun e => if e.fst == k then (k, v) else e) = l.map id := by
    apply List.map_congr_left
    intro e he
    have h1 := hall e he
    simp only [Bool.not_eq_true] at h1
    simp [h1]
  simpa using this

theorem mapSet_mapSet_self {β : Type} (l : List (String × β)) (k : String)
    (v w : β) : mapSet (mapSet l k v) k w = mapSet l k w := by
  have hhas : mapHas (mapSet l k v) k = true := mapHas_mapSet_self l k v
  rw [mapSet_of_has (mapSet l k v) k w hhas]
  cases h : mapHas l k with
  | true =>
      rw [mapSet_of_has l k v h, mapSet_of_has l k w h, List.map_map]
      apply List.map_congr_left
      intro e _
      by_cases he : e.fst = k
      · simp [he]
      · simp [Function.comp, he]
  | false =>
      rw [mapSet_of_not_has l k v h, mapSet_of_not_has l k w h,
        List.map_append, map_of_not_has l k w h]
      simp

theorem mapGet_map_snd {β γ : Type} (f : β → γ) (l : List (String × β))
    (k : String) :
    mapGet (l.map (fun e => (e.fst, f e.snd))) k = (mapGet l k).map f := by
  induction l with
  | nil => rfl
  | cons e l ih =>
      by_cases he : e.fst = k
      · simp [mapGet, List.find?, he]
      · have he' : (e.fst == k) = false := by simp [he]
        simpa [mapGet, List.find?, he'] using ih

theorem mem_of_mapGet_eq_some {β : Type} (l : List (String × β)) (k : String)
    (v : β) (h : mapGet l k = some v) : (k, v) ∈ l := by
  unfold mapGet at h
  cases hf : l.find? (fun e => e.fst == k) with
  | none => rw [hf] at h; simp at h
  | some e =>
      rw [hf] at h
      have hmem := List.mem_of_find?_eq_some hf
      have hp := List.find?_some hf
      simp only [beq_iff_eq] at hp
      simp at h
      have : e = (k, v) := by
        obtain ⟨a, b⟩ := e
        simp only at hp h
        rw [hp, h]
      rwa [this] at hmem

theorem cleanupEntries_none (l : List (String × List String)) :
    cleanupEntries none l = (l, []) := by
  induction l with
  | nil => rfl
  | cons e l ih => simp [cleanupEntries, ih]

theorem cleanupEntries_some_snd (p : String)
    (l : List (String × List String)) :
    (cleanupEntries (some p) l).snd =
      (l.filter (fun e => e.snd.contains p)).map (fun e => (e.fst, p)) := by
  induction l with
  | nil => rfl
  | cons e l ih =>
      obtain ⟨m, peers⟩ := e
      by_cases hm : p ∈ peers
      · by_cases h0 : setDelete peers p = []
        · simp [cleanupEntries, hm, h0, List.filter_cons, ih]
        · simp [cleanupEntries, hm, h0, List.filter_cons, ih]
      · simp [cleanupEntries, hm, List.filter_cons, ih]

theorem cleanupEntries_some_fst_no_p (p : String)
    (l : List (String × List String)) :
    ∀ e ∈ (cleanupEntries (some p) l).fst, e.snd.contains p = false := by
  induction l with
  | nil => intro e he; simp [cleanupEntries] at he
  | cons a l ih =>
      obtain ⟨m, peers⟩ := a
      intro e he
      by_cases hm : p ∈ peers
      · have hc : peers.contains p = true := by simpa [List.elem_iff] using hm
        by_cases h0 : (setDelete peers p).length = 0
        · simp only [cleanupEntries, hc, if_true, h0] at he
          exact ih e he
        · simp only [cleanupEntries, hc, if_true, h0, if_false,
            List.mem_cons] at he
          rcases he with he | he
          · rw [he]
            exact setDelete_contains_self peers p
          · exact ih e he
      · have hc : peers.contains p = false := by
          simpa [List.elem_iff] using hm
        simp only [cleanupEntries, hc, Bool.false_eq_true, if_false,
          List.mem_cons] at he
        rcases he with he | he
        · rw [he]
          exact hc
        · exact ih e he

theorem roomMembers_roomJoin_self (rooms : List (String × List String))
    (name sock : String) :
    roomMembers (roomJoin rooms name sock) name =
      setAdd (roomMembers rooms name) sock := by
  simp [roomMembers, roomJoin, mapGet_mapSet_self]

theorem filter_ne_of_not_mem (l : List String) (x : String) (h : x ∉ l) :
    l.filter (fun q => q != x) = l := by
  apply List.filter_eq_self.mpr
  intro a ha
  simp only [bne_iff_ne, ne_eq, decide_eq_true_eq]
  intro hax
  exact h (hax ▸ ha)

theorem roomLeave_idem (rooms : List (String × List String))
    (name sock : String) :
    roomLeave (roomLeave rooms name sock) name sock =
      roomLeave rooms name sock := by
  unfold roomLeave
  rw [List.map_map]
  apply List.map_congr_left
  intro e _
  by_cases he : e.fst = name
  · simp [Function.comp, he, setDelete_idem]
  · simp [Function.comp, he]

theorem leave_connected (st : VoiceState) (sock m p : String) :
    (leaveVoiceRoom st sock m p).fst.connected = st.connected := by
  cases hap : mapGet st.activePeers m <;> simp [leaveVoiceRoom, hap]

theorem leave_rooms (st : VoiceState) (sock m p : String) :
    (leaveVoiceRoom st sock m p).fst.rooms = roomLeave st.rooms m sock := by
  cases hap : mapGet st.activePeers m <;> simp [leaveVoiceRoom, hap]

theorem leave_socketToPeer (st : VoiceState) (sock m p : String) :
    (leaveVoiceRoom st sock m p).fst.socketToPeer =
      mapDelete st.socketToPeer sock := by
  cases hap : mapGet st.activePeers m <;> simp [leaveVoiceRoom, hap]

theorem rooms_removeSock_idem (rooms : List (String × List String))
    (sock : String) :
    (rooms.map (fun e => (e.fst, e.snd.filter (fun x => x != sock)))).map
      (fun e => (e.fst, e.snd.filter (fun x => x != sock))) =
      rooms.map (fun e => (e.fst, e.snd.filter (fun x => x != sock))) := by
  rw [List.map_map]
  apply List.map_congr_left
  intro e _
  simp [Function.comp, filter_idem]

theorem socketDisconnect_fst (st : VoiceState) (sock : String) :
    (socketDisconnect st sock).fst =
      VoiceState.mk (st.connected.filter (fun x => x != sock))
        (st.rooms.map (fun e => (e.fst, e.snd.filter (fun x => x != sock))))
        (cleanupEntries (mapGet st.socketToPeer sock) st.activePeers).fst
        (mapDelete st.socketToPeer sock) := rfl

theorem socketDisconnect_unbound (st2 : VoiceState) (sock : String)
    (h : mapGet st2.socketToPeer sock = none) :
    socketDisconnect st2 sock =
      (VoiceState.mk (st2.connected.filter (fun x => x != sock))
        (st2.rooms.map (fun e => (e.fst, e.snd.filter (fun x => x != sock))))
        st2.activePeers (mapDelete st2.socketToPeer sock), []) := by
  simp only [socketDisconnect, transportLeave, h, cleanupEntries_none,
    List.map_nil]

theorem contains_deliverTo_transportLeave (st : VoiceState)
    (sock name : String) :
    ((deliverTo (transportLeave st sock) name).contains sock) = false := by
  have h : sock ∉ deliverTo (transportLeave st sock) name := by
    intro hmem
    simp only [deliverTo, transportLeave, List.mem_append] at hmem
    rcases hmem with hmem | hmem
    · by_cases hc : name ∈ st.connected.filter (fun x => x != sock)
      · rw [if_pos hc] at hmem
        simp only [List.mem_singleton] at hmem
        have := List.of_mem_filter hc
        rw [← hmem] at this
        simp at this
      · rw [if_neg hc] at hmem
        simp at hmem
    · have hmem' := List.mem_of_mem_filter hmem
      simp only [roomMembers] at hmem'
      rw [mapGet_map_snd] at hmem'
      cases hr : mapGet st.rooms name with
      | none => rw [hr] at hmem'; simp at hmem'
      | some l =>
          rw [hr] at hmem'
          simp [List.mem_filter] at hmem'
  simpa [List.elem_iff] using h

/-- Characterization of the success branch of the join handler: with an
active meeting and strictly fewer than 10 recorded peers, the handler adds
the peer, binds the socket and emits the four join events. -/
theorem join_success (validActive : String → Bool) (st : VoiceState)
    (sock m p u : String) (hv : validActive m = true)
    (hlen : (membersOf st m).length < 10) :
    joinVoiceRoom validActive st sock m p u =
      (VoiceState.mk st.connected (roomJoin st.rooms m sock)
        (mapSet (if mapHas st.activePeers m then st.activePeers
                 else mapSet st.activePeers m []) m (setAdd (membersOf st m) p))
        (mapSet st.socketToPeer sock p),
       [Emit.mk
          (deliverToExcept
            (VoiceState.mk st.connected (roomJoin st.rooms m sock)
              (mapSet (if mapHas st.activePeers m then st.activePeers
                       else mapSet st.activePeers m []) m
                (setAdd (membersOf st m) p))
              (mapSet st.socketToPeer sock p)) m sock)
          "peer-joined" (.s p),
        Emit.mk [sock] "voice-joined"
          (.obj [("peers",
                  .arr (((setAdd (membersOf st m) p).filter
                    (fun q => q != p)).map JVal.s)),
                 ("meetingId", .s m)]),
        Emit.mk [sock] "room-participants"
          (.obj [("participants",
                  .arr (((setAdd (membersOf st m) p).filter
                    (fun q => q != p)).map (fun q => participantObj q q)))]),
        Emit.mk
          (deliverToExcept
            (VoiceState.mk st.connected (roomJoin st.rooms m sock)
              (mapSet (if mapHas st.activePeers m then st.activePeers
                       else mapSet st.activePeers m []) m
                (setAdd (membersOf st m) p))
              (mapSet st.socketToPeer sock p)) m sock)
          "participant-joined" (participantObj sock p)]) := by
  cases hap : mapGet st.activePeers m with
  | some peers =>
      have hhas : mapHas st.activePeers m = true := by simp [mapHas, hap]
      have hmem : membersOf st m = peers := by simp [membersOf, hap]
      have hlen' : ¬ 10 ≤ peers.length := by
        rw [hmem] at hlen; omega
      simp only [joinVoiceRoom, hv, Bool.true_eq_false, if_false, hhas,
        if_true, hap, Option.getD_some, hlen', hmem,
        mapGet_mapSet_self]
  | none =>
      have hhas : mapHas st.activePeers m = false := by simp [mapHas, hap]
      have hmem : membersOf st m = [] := by simp [membersOf, hap]
      have h0 : mapGet (mapSet st.activePeers m []) m = some [] :=
        mapGet_mapSet_self st.activePeers m []
      have hlen' : ¬ 10 ≤ ([] : List String).length := by simp
      simp only [joinVoiceRoom, hv, Bool.true_eq_false, if_false, hhas,
        Bool.false_eq_true, if_true, h0, Option.getD_some, hlen', hmem,
        mapGet_mapSet_self]

/-- Claim C1: a join arriving at a validated meeting whose room already holds
10 (or more) distinct peers is answered with the room-full voice-error to the
initiating connection only, mutates nothing, and the room size is unchanged. -/
theorem C1_room_full_rejected (validActive : String → Bool) (st : VoiceState)
    (sock m p u : String) (peers : List String)
    (hv : validActive m = true)
    (hm : mapGet st.activePeers m = some peers)
    (hlen : 10 ≤ peers.length) :
    joinVoiceRoom validActive st sock m p u =
      (st, [Emit.mk [sock] "voice-error"
              (JVal.s "Meeting full (maximum 10 users)")]) ∧
    membersOf (joinVoiceRoom validActive st sock m p u).fst m = peers := by
  have hhas : mapHas st.activePeers m = true := by simp [mapHas, hm]
  have h1 : joinVoiceRoom validActive st sock m p u =
      (st, [Emit.mk [sock] "voice-error"
              (JVal.s "Meeting full (maximum 10 users)")]) := by
    simp [joinVoiceRoom, hv, hhas, hm, hlen]
  refine ⟨h1, ?_⟩
  rw [h1]
  simp [membersOf, hm]

/-- Claim C1 witness: a concrete 10-peer room rejects an 11th join and keeps
its 10 members. -/
theorem C1_witness :
    joinVoiceRoom (fun _ => true) stFullW "S11" "M1" "P11" "U11" =
      (stFullW, [Emit.mk ["S11"] "voice-error"
                   (JVal.s "Meeting full (maximum 10 users)")]) ∧
    (membersOf stFullW "M1").length = 10 :=
  ⟨(C1_room_full_rejected (fun _ => true) stFullW "S11" "M1" "P11" "U11"
      tenPeersW rfl rfl (by decide)).1, by decide⟩

/-- Claim C5: a join for a meeting the validator reports absent or inactive
is answered with the not-found voice-error to the initiating connection only
and leaves the whole state unchanged. -/
theorem C5_invalid_meeting_rejected (validActive : String → Bool)
    (st : VoiceState) (sock m p u : String) (hv : validActive m = false) :
    joinVoiceRoom validActive st sock m p u =
      (st, [Emit.mk [sock] "voice-error"
              (JVal.s "Meeting not found or inactive")]) := by
  simp [joinVoiceRoom, hv]

/-- Claim C5 witness: a concrete inactive meeting join is rejected without
any state change. -/
theorem C5_witness :
    joinVoiceRoom (fun _ => false) stFullW "S11" "M2" "P11" "U11" =
      (stFullW, [Emit.mk ["S11"] "voice-error"
                   (JVal.s "Meeting not found or inactive")]) :=
  C5_invalid_meeting_rejected (fun _ => false) stFullW "S11" "M2" "P11" "U11"
    rfl

/-- Claim C6: on a successful join the joiner gets voice-joined with the
post-insertion member list minus itself plus the meeting id, and exactly the
prior room members get a peer-joined broadcast carrying the new peer id. -/
theorem C6_join_notifications (validActive : String → Bool) (st : VoiceState)
    (sock m p u : String)
    (hv : validActive m = true)
    (hlen : (membersOf st m).length < 10)
    (hsock : sock ∉ roomMembers st.rooms m)
    (hmc : m ∉ st.connected)
    (hmm : m ∉ roomMembers st.rooms m)
    (hms : m ≠ sock) :
    (joinVoiceRoom validActive st sock m p u).snd =
      [Emit.mk (roomMembers st.rooms m) "peer-joined" (.s p),
       Emit.mk [sock] "voice-joined"
         (.obj [("peers",
                 .arr (((setAdd (membersOf st m) p).filter
                   (fun q => q != p)).map JVal.s)),
                ("meetingId", .s m)]),
       Emit.mk [sock] "room-participants"
         (.obj [("participants",
                 .arr (((setAdd (membersOf st m) p).filter
                   (fun q => q != p)).map (fun q => participantObj q q)))]),
       Emit.mk (roomMembers st.rooms m) "participant-joined"
         (participantObj sock p)] := by
  rw [join_success validActive st sock m p u hv hlen]
  have htargets :
      deliverToExcept
        (VoiceState.mk st.connected (roomJoin st.rooms m sock)
          (mapSet (if mapHas st.activePeers m then st.activePeers
                   else mapSet st.activePeers m []) m
            (setAdd (membersOf st m) p))
          (mapSet st.socketToPeer sock p)) m sock =
        roomMembers st.rooms m := by
    have h1 : roomMembers (roomJoin st.rooms m sock) m =
        roomMembers st.rooms m ++ [sock] := by
      rw [roomMembers_roomJoin_self]
      simp [setAdd, hsock]
    have hsm : (sock != m) = true := by
      simp [bne_iff_ne]
      exact fun h => hms h.symm
    simp only [deliverToExcept, deliverTo, hmc, if_false, h1,
      List.filter_append]
    rw [filter_ne_of_not_mem _ _ hmm, filter_ne_of_not_mem _ _ hsock]
    simp [hsm]
  rw [htargets]

/-- Claim C6 witness: after "P1" joined "M1", "P2" joining on socket "S2"
receives voice-joined with peers ["P1"] and meeting "M1", while "S1" gets the
peer-joined broadcast carrying "P2". -/
theorem C6_witness :
    (joinVoiceRoom (fun _ => true) stJoin1W "S2" "M1" "P2" "U2").snd =
      [Emit.mk ["S1"] "peer-joined" (JVal.s "P2"),
       Emit.mk ["S2"] "voice-joined"
         (.obj [("peers", .arr [JVal.s "P1"]), ("meetingId", .s "M1")]),
       Emit.mk ["S2"] "room-participants"
         (.obj [("participants", .arr [participantObj "P1" "P1"])]),
       Emit.mk ["S1"] "participant-joined" (participantObj "S2" "P2")] := by
  rw [C6_join_notifications (fun _ => true) stJoin1W "S2" "M1" "P2" "U2"
    rfl (by decide) (by decide) (by decide) (by decide) (by decide)]
  rfl

/-- Claim C7 counterexample: in a concrete successful join, the
participant-joined broadcast's field names are socketId, odiserId,
displayName — not the socketId, peerId, displayName the claim states. -/
theorem C7_counterexample :
    ((joinVoiceRoom (fun _ => true) stJoin1W "S2" "M1" "P2" "U2").snd.map
        (fun e => fieldNames e.data)).get? 3 =
      some ["socketId", "odiserId", "displayName"] ∧
    ¬ ((joinVoiceRoom (fun _ => true) stJoin1W "S2" "M1" "P2" "U2").snd.map
        (fun e => fieldNames e.data)).get? 3 =
      some ["socketId", "peerId", "displayName"] := by
  constructor
  · rfl
  · decide

/-- Claim C7 (amended): the participant-joined broadcast and every entry of
the room-participants reply carry exactly the field names socketId, odiserId
and displayName. -/
theorem C7_amended_field_names (validActive : String → Bool)
    (st : VoiceState) (sock m p u : String)
    (hv : validActive m = true)
    (hlen : (membersOf st m).length < 10) :
    ((joinVoiceRoom validActive st sock m p u).snd.map
        (fun e => (e.event, fieldNames e.data))) =
      [("peer-joined", []),
       ("voice-joined", ["peers", "meetingId"]),
       ("room-participants", ["participants"]),
       ("participant-joined", ["socketId", "odiserId", "displayName"])] ∧
    ∀ e ∈ (joinVoiceRoom validActive st sock m p u).snd,
      ∀ v ∈ participantEntries e.data,
        fieldNames v = ["socketId", "odiserId", "displayName"] := by
  rw [join_success validActive st sock m p u hv hlen]
  constructor
  · simp [fieldNames, participantObj]
  · intro e he v hv'
    simp only [List.mem_cons, List.not_mem_nil, or_false] at he
    rcases he with he | he | he | he <;> rw [he] at hv'
    · simp [participantEntries] at hv'
    · simp [participantEntries] at hv'
    · simp only [participantEntries, List.mem_map] at hv'
      obtain ⟨q, _, hq⟩ := hv'
      rw [← hq]
      rfl
    · simp [participantEntries, participantObj] at hv'

/-- Claim C7 witness (for the amended statement): the concrete second join
shows the odiserId field names on the wire. -/
theorem C7_witness :
    ((joinVoiceRoom (fun _ => true) stJoin1W "S2" "M1" "P2" "U2").snd.map
        (fun e => (e.event, fieldNames e.data))) =
      [("peer-joined", []),
       ("voice-joined", ["peers", "meetingId"]),
       ("room-participants", ["participants"]),
       ("participant-joined", ["socketId", "odiserId", "displayName"])] :=
  (C7_amended_field_names (fun _ => true) stJoin1W "S2" "M1" "P2" "U2"
    rfl (by decide)).1

/-- Claim C9: end-meeting broadcasts force-disconnect to the current room
members and mutates neither the room membership table nor the bindings. -/
theorem C9_end_meeting_pure (st : VoiceState) (m : String)
    (hmc : m ∉ st.connected) (hmm : m ∉ roomMembers st.rooms m) :
    (endMeeting st m).fst = st ∧
    (endMeeting st m).snd =
      [Emit.mk (roomMembers st.rooms m) "force-disconnect" (.obj [])] := by
  refine ⟨rfl, ?_⟩
  simp [endMeeting, deliverTo, hmc, filter_ne_of_not_mem _ _ hmm]

/-- Claim C9 witness: end-meeting on a concrete populated state changes
nothing and signals the room's sockets. -/
theorem C9_witness :
    (endMeeting stRoomW "M1").fst = stRoomW ∧
    (endMeeting stRoomW "M1").snd =
      [Emit.mk ["S1", "S2"] "force-disconnect" (.obj [])] := by
  have h := C9_end_meeting_pure stRoomW "M1" (by decide) (by decide)
  exact ⟨h.1, by rw [h.2]; rfl⟩

/-- Claim C8 counterexample: a webrtc-offer whose targetSocketId equals the
joined meeting id "M1" — which is not an open connection — is not dropped but
broadcast to both room sockets "S1" and "S2", neither of which is a
connection named "M1". -/
theorem C8_counterexample :
    webrtcOffer stRoomW "S1" "M1" (JVal.s "sdp") =
      (stRoomW, [Emit.mk ["S1", "S2"] "webrtc-offer"
        (.obj [("senderSocketId", .s "S1"), ("offer", .s "sdp")])]) ∧
    "M1" ∉ stRoomW.connected :=
  ⟨rfl, by decide⟩

/-- Claim C8 (amended): each relay event mutates nothing, gives the sender no
error, and emits one message embedding the sender id next to the unmodified
payload; it is delivered to the sockets Socket.IO resolves for the room named
targetSocketId — the connection of that id when open, plus any sockets that
joined a room of that name — so when no joined room shares the name, delivery
is exactly the target connection if open and nobody otherwise. -/
theorem C8_relay_delivery (st : VoiceState) (sock t : String)
    (payload : JVal) :
    (webrtcOffer st sock t payload =
      (st, [Emit.mk (deliverTo st t) "webrtc-offer"
              (.obj [("senderSocketId", .s sock), ("offer", payload)])]) ∧
     webrtcAnswer st sock t payload =
      (st, [Emit.mk (deliverTo st t) "webrtc-answer"
              (.obj [("senderSocketId", .s sock), ("answer", payload)])]) ∧
     iceCandidate st sock t payload =
      (st, [Emit.mk (deliverTo st t) "ice-candidate"
              (.obj [("senderSocketId", .s sock), ("candidate", payload)])])) ∧
    (∀ x, x ∈ deliverTo st t ↔
      (x = t ∧ t ∈ st.connected) ∨
        (x ∈ roomMembers st.rooms t ∧ x ≠ t)) ∧
    (roomMembers st.rooms t = [] →
      deliverTo st t = if t ∈ st.connected then [t] else []) := by
  refine ⟨⟨rfl, rfl, rfl⟩, ?_, ?_⟩
  · intro x
    by_cases hc : t ∈ st.connected
    · simp [deliverTo, hc, List.mem_filter, and_comm]
    · simp [deliverTo, hc, List.mem_filter, and_comm]
  · intro ht
    simp [deliverTo, ht]

/-- Claim C8 witness: without a room named like the target, an offer to the
open socket "S2" reaches only "S2" and an ICE candidate to the absent "S9"
is dropped; states are unchanged. -/
theorem C8_witness :
    webrtcOffer stTwoW "S1" "S2" (JVal.s "sdp") =
      (stTwoW, [Emit.mk ["S2"] "webrtc-offer"
        (.obj [("senderSocketId", .s "S1"), ("offer", .s "sdp")])]) ∧
    iceCandidate stTwoW "S1" "S9" (JVal.s "cand") =
      (stTwoW, [Emit.mk [] "ice-candidate"
        (.obj [("senderSocketId", .s "S1"), ("candidate", .s "cand")])]) := by
  have h1 := C8_relay_delivery stTwoW "S1" "S2" (JVal.s "sdp")
  have h2 := C8_relay_delivery stTwoW "S1" "S9" (JVal.s "cand")
  have d1 : deliverTo stTwoW "S2" = ["S2"] := by
    rw [h1.2.2 rfl]
    rfl
  have d2 : deliverTo stTwoW "S9" = [] := by
    rw [h2.2.2 rfl]
    rfl
  exact ⟨by rw [h1.1.1, d1], by rw [h2.1.2.2, d2]⟩

/-- Claim C10: a duplicate join of an already-present peer id into a
validated, non-full room is not rejected: the distinct-peer set is unchanged,
the socket binding is overwritten to that peer id, and the join broadcasts
are emitted again. -/
theorem C10_duplicate_join (validActive : String → Bool) (st : VoiceState)
    (sock m p u : String) (peers : List String)
    (hv : validActive m = true)
    (hm : mapGet st.activePeers m = some peers)
    (hmem : p ∈ peers)
    (hlen : peers.length < 10) :
    membersOf (joinVoiceRoom validActive st sock m p u).fst m = peers ∧
    mapGet (joinVoiceRoom validActive st sock m p u).fst.socketToPeer sock =
      some p ∧
    (joinVoiceRoom validActive st sock m p u).snd.map Emit.event =
      ["peer-joined", "voice-joined", "room-participants",
       "participant-joined"] ∧
    ((joinVoiceRoom validActive st sock m p u).snd.map Emit.data).head? =
      some (JVal.s p) := by
  have hmem' : membersOf st m = peers := by simp [membersOf, hm]
  have hlen' : (membersOf st m).length < 10 := by rw [hmem']; exact hlen
  rw [join_success validActive st sock m p u hv hlen']
  refine ⟨?_, ?_, ?_, ?_⟩
  · simp only [membersOf, mapGet_mapSet_self, Option.getD_some]
    rw [hm]
    simp [setAdd, hmem]
  · simp [mapGet_mapSet_self]
  · rfl
  · rfl

/-- Claim C10 witness: socket "S1", already bound to "P1" in "M1", joins
again with the same peer id. -/
theorem C10_witness :
    membersOf (joinVoiceRoom (fun _ => true) stRoomW "S1" "M1" "P1" "U1").fst
      "M1" = ["P1", "P2"] ∧
    mapGet (joinVoiceRoom (fun _ => true) stRoomW "S1" "M1" "P1"
      "U1").fst.socketToPeer "S1" = some "P1" ∧
    (joinVoiceRoom (fun _ => true) stRoomW "S1" "M1" "P1" "U1").snd.map
      Emit.event =
      ["peer-joined", "voice-joined", "room-participants",
       "participant-joined"] :=
  have h := C10_duplicate_join (fun _ => true) stRoomW "S1" "M1" "P1" "U1"
    ["P1", "P2"] rfl rfl (by decide) (by decide)
  ⟨h.1, h.2.1, h.2.2.1⟩

/-- Claim C4: a join into a meeting with no room entry followed by a leave of
the same (meetingId, peerId) leaves no registry entry; and whenever the last
remaining peer of a room leaves, the room entry is deleted entirely. -/
theorem C4_room_removed_when_empty (validActive : String → Bool)
    (st st' : VoiceState) (sock sock' m m' p p' u : String)
    (ps : List String)
    (hv : validActive m = true)
    (hnone : mapGet st.activePeers m = none)
    (hlast : mapGet st'.activePeers m' = some ps)
    (hps : ps.filter (fun q => q != p') = []) :
    mapHas (leaveVoiceRoom (joinVoiceRoom validActive st sock m p u).fst
      sock m p).fst.activePeers m = false ∧
    mapHas (leaveVoiceRoom st' sock' m' p').fst.activePeers m' = false := by
  constructor
  · have hm1 : membersOf st m = [] := by simp [membersOf, hnone]
    have hlen : (membersOf st m).length < 10 := by simp [hm1]
    rw [join_success validActive st sock m p u hv hlen]
    have hget : mapGet
        (mapSet (if mapHas st.activePeers m then st.activePeers
                 else mapSet st.activePeers m []) m
          (setAdd (membersOf st m) p)) m = some [p] := by
      rw [mapGet_mapSet_self, hm1]
      simp [setAdd]
    simp only [leaveVoiceRoom, hget]
    simp [setDelete, mapHas_mapDelete_self]
  · simp only [leaveVoiceRoom, hlast]
    have h0 : setDelete ps p' = [] := hps
    simp [h0, mapHas_mapDelete_self]

/-- Claim C4 witness: join then leave on a fresh meeting leaves no entry, and
the last peer of "M1" leaving removes the whole entry. -/
theorem C4_witness :
    mapHas (leaveVoiceRoom (joinVoiceRoom (fun _ => true) stTwoW "S1" "M2"
      "P1" "U1").fst "S1" "M2" "P1").fst.activePeers "M2" = false ∧
    mapHas (leaveVoiceRoom stJoin1W "S1" "M1" "P1").fst.activePeers "M1" =
      false :=
  C4_room_removed_when_empty (fun _ => true) stTwoW stJoin1W "S1" "S1" "M2"
    "M1" "P1" "P1" "U1" ["P1"] rfl rfl rfl rfl

/-- Claim C2: when a socket bound to peer p disconnects at the transport
level, p is removed from every meeting it appears in, one peer-disconnected
broadcast carrying p (not the socket id) goes to each such meeting's
remaining sockets, and the disconnecting socket receives none of them. -/
theorem C2_disconnect_cleanup (st : VoiceState) (sock p : String)
    (hb : mapGet st.socketToPeer sock = some p) :
    (∀ m, ((membersOf (socketDisconnect st sock).fst m).contains p) =
      false) ∧
    (socketDisconnect st sock).snd =
      (st.activePeers.filter (fun e => e.snd.contains p)).map
        (fun e => Emit.mk (deliverTo (transportLeave st sock) e.fst)
          "peer-disconnected" (JVal.s p)) ∧
    (∀ e ∈ (socketDisconnect st sock).snd,
      e.targets.contains sock = false) := by
  have hfst : (socketDisconnect st sock).fst.activePeers =
      (cleanupEntries (some p) st.activePeers).fst := by
    rw [socketDisconnect_fst, hb]
  have hsnd : (socketDisconnect st sock).snd =
      (cleanupEntries (some p) st.activePeers).snd.map (fun e =>
        Emit.mk (deliverTo (transportLeave st sock) e.fst)
          "peer-disconnected" (JVal.s e.snd)) := by
    simp only [socketDisconnect, transportLeave, hb]
  refine ⟨?_, ?_, ?_⟩
  · intro m
    cases hq : mapGet (cleanupEntries (some p) st.activePeers).fst m with
    | none => simp [membersOf, hfst, hq]
    | some l =>
        have hmem := mem_of_mapGet_eq_some _ _ _ hq
        have hnp := cleanupEntries_some_fst_no_p p st.activePeers (m, l) hmem
        simpa [membersOf, hfst, hq] using hnp
  · rw [hsnd, cleanupEntries_some_snd, List.map_map]
    rfl
  · intro e he
    rw [hsnd] at he
    obtain ⟨a, _, ha⟩ := List.mem_map.mp he
    rw [← ha]
    exact contains_deliverTo_transportLeave st sock a.fst

/-- Claim C2 witness: socket "S1" (bound to "P1") disconnecting removes "P1"
from "M1" and broadcasts exactly one peer-disconnected "P1" to "S2". -/
theorem C2_witness :
    ((membersOf (socketDisconnect stRoomW "S1").fst "M1").contains "P1") =
      false ∧
    (socketDisconnect stRoomW "S1").snd =
      [Emit.mk ["S2"] "peer-disconnected" (JVal.s "P1")] := by
  have h := C2_disconnect_cleanup stRoomW "S1" "P1" rfl
  exact ⟨h.1 "M1", by rw [h.2.1]; rfl⟩

/-- Claim C3 counterexample: in a room still holding another peer, a second
leave-voice-room with the same arguments re-emits a peer-disconnected
broadcast (delivered to socket "S2"), contradicting the claim that the
second invocation emits no additional broadcast. -/
theorem C3_counterexample :
    (leaveVoiceRoom (leaveVoiceRoom stRoomW "S1" "M1" "P1").fst
        "S1" "M1" "P1").snd =
      [Emit.mk ["S2"] "peer-disconnected" (JVal.s "P1")] := rfl

/-- Claim C3 (amended): double disconnect, and leave followed by disconnect,
are idempotent with no further broadcast; a repeated leave also leaves all
state exactly as the first leave left it, but re-emits peer-disconnected to
the room's remaining sockets exactly when the room entry still exists. -/
theorem C3_amended_idempotence (st : VoiceState) (sock m p : String) :
    socketDisconnect (socketDisconnect st sock).fst sock =
      ((socketDisconnect st sock).fst, []) ∧
    ((socketDisconnect (leaveVoiceRoom st sock m p).fst sock).fst.activePeers
        = (leaveVoiceRoom st sock m p).fst.activePeers ∧
      (socketDisconnect (leaveVoiceRoom st sock m
        p).fst sock).fst.socketToPeer =
        (leaveVoiceRoom st sock m p).fst.socketToPeer ∧
      (socketDisconnect (leaveVoiceRoom st sock m p).fst sock).snd = []) ∧
    leaveVoiceRoom (leaveVoiceRoom st sock m p).fst sock m p =
      ((leaveVoiceRoom st sock m p).fst,
       if mapHas (leaveVoiceRoom st sock m p).fst.activePeers m = true then
         [Emit.mk (deliverTo (leaveVoiceRoom st sock m p).fst m)
            "peer-disconnected" (JVal.s p)]
       else []) := by
  refine ⟨?_, ?_, ?_⟩
  · have h1 : mapGet (socketDisconnect st sock).fst.socketToPeer sock =
        none := by
      rw [socketDisconnect_fst]
      exact mapGet_mapDelete_self _ _
    rw [socketDisconnect_unbound _ _ h1, socketDisconnect_fst st sock]
    dsimp only
    rw [filter_idem, rooms_removeSock_idem, mapDelete_idem]
  · have h2 : mapGet (leaveVoiceRoom st sock m p).fst.socketToPeer sock =
        none := by
      rw [leave_socketToPeer]
      exact mapGet_mapDelete_self _ _
    rw [socketDisconnect_unbound _ _ h2]
    refine ⟨rfl, ?_, rfl⟩
    dsimp only
    rw [leave_socketToPeer, mapDelete_idem]
  · cases hap : mapGet st.activePeers m with
    | none =>
        simp [leaveVoiceRoom, hap, mapHas, roomLeave_idem, mapDelete_idem]
    | some peers =>
        by_cases h0 : (setDelete peers p).length = 0
        · simp [leaveVoiceRoom, hap, h0, mapGet_mapDelete_self, mapHas,
            roomLeave_idem, mapDelete_idem]
        · simp [leaveVoiceRoom, hap, h0, mapGet_mapSet_self, mapHas,
            setDelete_idem, mapSet_mapSet_self, roomLeave_idem,
            mapDelete_idem, deliverTo]

end RealTimeVoice
